import Mathlib

/-!
Verification of the Parratech induction-player core against its sources.

Shallow embedding of:
- the command grammar (`parse` in `src/commands.ts`),
- the utterance reassembler (`RealtimeClient.handleDataMessage` in `src/realtime.ts`),
- the connect state machine (`RealtimeClient.connect` in `src/realtime.ts`),
- the session negotiator (`app.get('/session')` in `server.js`),
- the playback controller handlers (`handleNext` / `handlePrev` /
  `handleShowById` in `src/App.tsx`).

JavaScript strings are modelled as Lean `String`; JS `Map` as an
association list preserving insertion order; JS numbers used as indices
as `Int` (so that `length - 1` on an empty list is `-1`, as in JS).
-/

namespace Parratech

/-! ## Command parser (src/commands.ts) -/

inductive CommandAction where
  | NEXT
  | REPLAY
  | SHOW (id : String)
deriving DecidableEq

/-- Characters of `s` mapped through `Char.toUpper`: the char-level model of
JS `String.prototype.toUpperCase` (ASCII-faithful, which covers the markers). -/
def upperData (s : String) : List Char := s.data.map Char.toUpper

/-- Model of JS `toUpperCase()`. -/
def upperStr (s : String) : String := ⟨upperData s⟩

/-- Model of JS `toLowerCase()`. -/
def lowerStr (s : String) : String := ⟨s.data.map Char.toLower⟩

/-- `needle` occurs as a contiguous run inside `hay`. -/
def isInfixB (needle hay : List Char) : Bool :=
  hay.tails.any (fun t => needle.isPrefixOf t)

/-- Model of `REGEX.test(text)` for a case-insensitive literal regex such as
`/\[SHOW:NEXT\]/i` or `/\[REPLAY\]/i`: case-insensitive substring containment. -/
def containsCI (text pat : String) : Bool :=
  isInfixB (upperData pat) (upperData text)

/-- Model of JS `String.prototype.trim` on the character list. -/
def trimChars (l : List Char) : List Char :=
  ((l.dropWhile Char.isWhitespace).reverse.dropWhile Char.isWhitespace).reverse

/-- Model of JS `String.prototype.trim`. -/
def trimStr (s : String) : String := ⟨trimChars s.data⟩

/-- First-match semantics of `text.match(/\[SHOW:([^\]]+)\]/i)`, returning the
captured payload: scan left to right; at each position, if `[SHOW:` matches
case-insensitively and is followed by at least one non-`]` character and then
a `]`, the maximal run of non-`]` characters is the capture; otherwise move
one character right. -/
def findShowPayload : List Char → Option (List Char)
  | [] => none
  | c :: rest =>
    if "[SHOW:".data.isPrefixOf ((c :: rest).map Char.toUpper) then
      let after := (c :: rest).drop 6
      let run := after.takeWhile (fun ch => ch != ']')
      if run.isEmpty then findShowPayload rest
      else if run.length < after.length then some run
      else findShowPayload rest
    else findShowPayload rest

/-- `parse` from `src/commands.ts`:
falsy text → `null`; `NEXT_REGEX` test → `NEXT`; `REPLAY_REGEX` test →
`REPLAY`; else first `SHOW_REGEX` match: trim the payload, drop it if empty,
normalize a payload that uppercases to `NEXT`, otherwise `SHOW id`. -/
def parse (text : String) : Option CommandAction :=
  if text = "" then none
  else if containsCI text "[SHOW:NEXT]" then some .NEXT
  else if containsCI text "[REPLAY]" then some .REPLAY
  else
    match findShowPayload text.data with
    | some run =>
      let id := trimStr ⟨run⟩
      if 0 < id.length then
        if upperStr id = "NEXT" then some .NEXT else some (.SHOW id)
      else none
    | none => none

/-! ## Utterance reassembler (RealtimeClient.handleDataMessage, src/realtime.ts) -/

/-- `responseBuffers : Map<string, string>`, as an insertion-ordered
association list. -/
def Buffers := List (String × String)

instance : DecidableEq Buffers := by
  unfold Buffers
  infer_instance

/-- `map.get(k)`. -/
def bufGet (bufs : Buffers) (k : String) : Option String :=
  (List.find? (fun e => e.1 = k) bufs).map (fun e => e.2)

/-- `map.has(k)`. -/
def bufHas (bufs : Buffers) (k : String) : Bool :=
  (bufGet bufs k).isSome

/-- `map.set(k, v)`: update in place, or append a new key. -/
def bufSet : Buffers → String → String → Buffers
  | [], k, v => [(k, v)]
  | e :: rest, k, v => if e.1 = k then (k, v) :: rest else e :: bufSet rest k v

/-- `map.delete(k)`. -/
def bufDel : Buffers → String → Buffers
  | [], _ => []
  | e :: rest, k => if e.1 = k then rest else e :: bufDel rest k

/-- JS truthiness of an optional string field: `undefined` and `""` are falsy. -/
def optTruthy : Option String → Option String
  | some s => if s = "" then none else some s
  | none => none

/-- One inbound data frame, after `JSON.parse`: either the parse threw
(`invalidJson`), or an object projected to the fields the handler reads:
`data.type`, `data.response_id`, `data.delta`, and `data.response.id`
(the nested id read by the `response.completed` branch). -/
inductive Frame where
  | invalidJson
  | event (tp : String) (responseId : Option String) (delta : Option String)
      (nestedId : Option String)

/-- Result of one `handleDataMessage` call: the new buffer map, the texts
emitted as `text` events (`emitText` calls that passed the trim guard),
and whether the catch-block warning was logged. -/
structure DataOutcome where
  buffers : Buffers
  emitted : List String
  logged : Bool
deriving DecidableEq

/-- `emitText` (src/realtime.ts): drop the event when the text trims to empty. -/
def emitText (text : String) : List String :=
  if trimStr text = "" then [] else [text]

/-- `RealtimeClient.handleDataMessage` (src/realtime.ts lines 103-130), as a
function of the current `responseBuffers` and one frame. The whole body is
inside `try`/`catch`, so it is total: a JSON parse failure only logs. -/
def handleDataMessage (bufs : Buffers) : Frame → DataOutcome
  | .invalidJson => ⟨bufs, [], true⟩
  | .event tp responseId delta nestedId =>
    if tp = "response.output_text.delta" then
      match optTruthy responseId with
      | some rid =>
        let existing := (bufGet bufs rid).getD ""
        ⟨bufSet bufs rid (existing ++ delta.getD ""), [], false⟩
      | none => ⟨bufs, [], false⟩
    else if tp = "response.output_text.done" then
      match optTruthy responseId with
      | some rid =>
        if bufHas bufs rid then
          ⟨bufDel bufs rid, emitText ((bufGet bufs rid).getD ""), false⟩
        else ⟨bufs, [], false⟩
      | none => ⟨bufs, [], false⟩
    else if tp = "response.completed" then
      match optTruthy nestedId with
      | some rid =>
        if bufHas bufs rid then
          ⟨bufDel bufs rid, emitText ((bufGet bufs rid).getD ""), false⟩
        else ⟨bufs, [], false⟩
      | none => ⟨bufs, [], false⟩
    else ⟨bufs, [], false⟩

/-! ## Connect state machine (RealtimeClient.connect, src/realtime.ts) -/

inductive ConnState where
  | idle
  | connecting
  | connected
  | closed
deriving DecidableEq

/-- The fields of `RealtimeClient` that `connect` reads or writes. -/
structure RtcState where
  connectionState : ConnState
  hasPeer : Bool
  hasDataChannel : Bool
  hasReadyPromise : Bool
  responseBuffers : Buffers
deriving DecidableEq

/-- The awaited side-effecting steps `connect` performs, in program order. -/
inductive ConnectAction where
  | createPeerConnection
  | getUserMedia
  | addLocalTracks
  | createDataChannel
  | createOffer
  | setLocalDescription
  | postOffer
  | setRemoteDescription
deriving DecidableEq

/-- Outcome of the SDP `fetch`: a network-level rejection, or an HTTP
response with its `ok` flag and body text. -/
inductive FetchOutcome where
  | netError (msg : String)
  | response (ok : Bool) (body : String)
deriving DecidableEq

/-- Resolutions of the promises `connect` awaits: `some msg` means that await
rejected with message `msg`. -/
structure ConnectEnv where
  mediaResult : Option String
  offerResult : Option String
  fetchResult : FetchOutcome
  answerResult : Option String
deriving DecidableEq

/-- What one `connect` call produced: `error = some e` iff the call threw
`e` to the caller, plus the client state afterwards and the trace of
side-effecting steps that ran. -/
structure ConnectOutcome where
  error : Option String
  state : RtcState
  trace : List ConnectAction
deriving DecidableEq

/-- `RealtimeClient.connect` (src/realtime.ts lines 29-101). There is no
`try`/`catch` in the source: a rejection at any await propagates out with the
fields as they are at that point. `connectionState` is set to `connecting` up
front and the method body never assigns `connected` or `closed` (those happen
in the `onopen` / `onconnectionstatechange` callbacks, outside this call). -/
def connect (st : RtcState) (env : ConnectEnv) : ConnectOutcome :=
  if st.connectionState ≠ .idle then ⟨none, st, []⟩
  else
    let st1 : RtcState := { st with connectionState := .connecting, hasPeer := true }
    match env.mediaResult with
    | some e => ⟨some e, st1, [.createPeerConnection, .getUserMedia]⟩
    | none =>
      let st2 : RtcState := { st1 with hasDataChannel := true, hasReadyPromise := true }
      let tr3 : List ConnectAction :=
        [.createPeerConnection, .getUserMedia, .addLocalTracks, .createDataChannel]
      match env.offerResult with
      | some e => ⟨some e, st2, tr3 ++ [.createOffer]⟩
      | none =>
        let tr4 := tr3 ++ [.createOffer, .setLocalDescription, .postOffer]
        match env.fetchResult with
        | .netError e => ⟨some e, st2, tr4⟩
        | .response ok body =>
          if ok then
            match env.answerResult with
            | some e => ⟨some e, st2, tr4 ++ [.setRemoteDescription]⟩
            | none => ⟨none, st2, tr4 ++ [.setRemoteDescription]⟩
          else
            ⟨some ("Failed to initialize realtime session: " ++ body), st2, tr4⟩

/-! ## Session negotiator (app.get('/session'), server.js) -/

/-- Result of one `createRealtimeSession(model, instructions)` call:
`ok` carries the remote payload's `model` field (`none` when the payload
omits it), `err` carries the HTTP status and the response text. -/
inductive HandshakeResult where
  | ok (payloadModel : Option String)
  | err (status : Nat) (detail : String)

/-- One entry pushed onto `attempts` in the `/session` loop. -/
structure AttemptRecord where
  model : String
  status : Nat
  detail : String

/-- What the `/session` handler sends: a session payload whose `model` field
is `model`, or a JSON error `{error, details}`. -/
inductive SessionOutcome where
  | success (model : String)
  | failure (error : String) (details : String)
deriving DecidableEq

/-- `shouldRetry` (server.js line 119). -/
def shouldRetry (status : Nat) : Bool :=
  status == 404 || status == 422 || status == 400

/-- JS `Array.prototype.join(sep)`. -/
def joinSep (sep : String) : List String → String
  | [] => ""
  | [a] => a
  | a :: b :: rest => a ++ sep ++ joinSep sep (b :: rest)

/-- One line of the attempt summary (server.js lines 126-135): `[model]`,
then `status N` (the status is always a number in this model), then the
detail when it is truthy, joined by spaces. -/
def attemptLine (a : AttemptRecord) : String :=
  joinSep " "
    (["[" ++ a.model ++ "]", "status " ++ toString a.status] ++
      (if a.detail = "" then [] else [a.detail]))

/-- `attemptSummary` (server.js lines 125-136): the lines joined by `" | "`. -/
def attemptSummary (l : List AttemptRecord) : String :=
  joinSep " | " (l.map attemptLine)

/-- The 500 payload built after the loop (server.js lines 139-142), with the
`||`-fallback for an empty summary. -/
def failurePayload (l : List AttemptRecord) : SessionOutcome :=
  .failure "Failed to create realtime session"
    (let s := attemptSummary l
     if s = "" then "Unknown error while creating realtime session." else s)

/-- The `for (const model of DEFAULT_REALTIME_MODELS)` loop (server.js lines
104-123) followed by the summary response: given the handshake oracle `h`,
the remaining candidates and the `attempts` accumulator, returns the outcome
together with the list of models actually passed to `createRealtimeSession`.
On success the payload's missing/falsy `model` field is filled with the
attempted model (server.js lines 109-112). -/
def negotiateLoop (h : String → HandshakeResult) :
    List String → List AttemptRecord → SessionOutcome × List String
  | [], attempts => (failurePayload attempts, [])
  | m :: rest, attempts =>
    match h m with
    | .ok pm => (.success ((optTruthy pm).getD m), [m])
    | .err s d =>
      let attempts2 := attempts ++ [⟨m, s, d⟩]
      if shouldRetry s then
        let r := negotiateLoop h rest attempts2
        (r.1, m :: r.2)
      else (failurePayload attempts2, [m])

/-- The `/session` handler's model-selection core (server.js lines 99-142):
an empty candidate list fails up front with no handshake call; otherwise the
loop runs. -/
def getSession (h : String → HandshakeResult) (models : List String) :
    SessionOutcome × List String :=
  if models.length = 0 then
    (.failure "Failed to create realtime session" "No realtime model configured.", [])
  else negotiateLoop h models []

/-- The attempts the loop records, written as a direct recursion (used to
state what the aggregated diagnostic contains). -/
def attemptedOf (h : String → HandshakeResult) : List String → List AttemptRecord
  | [] => []
  | m :: rest =>
    match h m with
    | .ok _ => []
    | .err s d => ⟨m, s, d⟩ :: (if shouldRetry s then attemptedOf h rest else [])

/-! ## Playback controller (src/App.tsx) -/

structure PlaylistItem where
  id : String
  src : String
  line : String
deriving DecidableEq

structure Playlist where
  site : String
  locale : String
  playlist : List PlaylistItem
deriving DecidableEq

inductive Role where
  | trainer
  | system
deriving DecidableEq

/-- A transcript entry as `appendTranscript` records it, projected to the
fields the claims are about (the random id and timestamp are dropped). -/
structure Entry where
  role : Role
  text : String
deriving DecidableEq

/-- `handleNext` (src/App.tsx lines 617-623): the functional state update
`Math.min(prev + 1, playlist.playlist.length - 1)`, keeping `prev` when the
clamp does not move. Indices are `Int`, as JS numbers. -/
def handleNext (pl : Option Playlist) (prev : Int) : Int :=
  match pl with
  | none => prev
  | some p =>
    let nx := min (prev + 1) ((p.playlist.length : Int) - 1)
    if nx = prev then prev else nx

/-- `handlePrev` (src/App.tsx lines 625-631): `Math.max(prev - 1, 0)`. -/
def handlePrev (pl : Option Playlist) (prev : Int) : Int :=
  match pl with
  | none => prev
  | some _p => let nx := max (prev - 1) 0; if nx = prev then prev else nx

/-- The media-load effect (src/App.tsx lines 775-798) runs when its
dependency `currentIndex` changes; React bails out of the re-render (and so
of the effect) when the state updater returns the same value. -/
def mediaReloadFires (oldIdx newIdx : Int) : Bool :=
  oldIdx != newIdx

inductive NavOp where
  | nextOp
  | prevOp

def navStep (pl : Option Playlist) (i : Int) : NavOp → Int
  | .nextOp => handleNext pl i
  | .prevOp => handlePrev pl i

/-- A sequence of Next/Previous presses, applied in order. -/
def navRun (pl : Option Playlist) : Int → List NavOp → Int
  | i, [] => i
  | i, op :: ops => navRun pl (navStep pl i op) ops

/-- JS `Array.prototype.findIndex`, returning `-1` on no match. -/
def findIndexAux (q : PlaylistItem → Bool) : List PlaylistItem → Int → Int
  | [], _ => -1
  | x :: xs, n => if q x then n else findIndexAux q xs (n + 1)

def findIndexJs (q : PlaylistItem → Bool) (l : List PlaylistItem) : Int :=
  findIndexAux q l 0

/-- `handleShowById` (src/App.tsx lines 633-645): look the id up with a
case-insensitive `findIndex`; on `-1` append one system transcript entry
naming the id; otherwise append the switch entry (naming the found step's
own id) and set `currentIndex` to the found position. -/
def handleShowById (pl : Option Playlist) (idx : Int) (log : List Entry)
    (id : String) : Int × List Entry :=
  match pl with
  | none => (idx, log)
  | some p =>
    let index := findIndexJs (fun item => lowerStr item.id == lowerStr id) p.playlist
    if index = -1 then
      (idx, log ++ [⟨.system, "Clip " ++ id ++ " is not part of the current playlist."⟩])
    else
      (index,
       log ++ [⟨.system,
         "Switching to clip " ++
           (((p.playlist.get? index.toNat).map (fun item => item.id)).getD "") ++ "."⟩])

/-! ## Helper lemmas -/

theorem string_append_ne_empty (s t : String) (hs : s ≠ "") : s ++ t ≠ "" := by
  intro h
  apply hs
  have hd : s.data ++ t.data = [] := by
    have h2 := congrArg String.data h
    rw [String.data_append] at h2
    simpa using h2
  have hsd : s.data = [] := (List.append_eq_nil.mp hd).1
  cases s
  simp_all

theorem joinSep_cons_ne_empty (sep x : String) (xs : List String) (hx : x ≠ "") :
    joinSep sep (x :: xs) ≠ "" := by
  cases xs with
  | nil => simpa [joinSep] using hx
  | cons y ys =>
    show x ++ sep ++ joinSep sep (y :: ys) ≠ ""
    exact string_append_ne_empty _ _ (string_append_ne_empty _ _ hx)

theorem attemptLine_ne_empty (a : AttemptRecord) : attemptLine a ≠ "" := by
  show joinSep " " (("[" ++ a.model ++ "]") :: ("status " ++ toString a.status) ::
    (if a.detail = "" then [] else [a.detail])) ≠ ""
  exact joinSep_cons_ne_empty _ _ _
    (string_append_ne_empty _ _ (string_append_ne_empty "[" a.model (by decide)))

theorem attemptSummary_cons_ne_empty (a : AttemptRecord) (l : List AttemptRecord) :
    attemptSummary (a :: l) ≠ "" := by
  show joinSep " | " (attemptLine a :: l.map attemptLine) ≠ ""
  exact joinSep_cons_ne_empty _ _ _ (attemptLine_ne_empty a)

/-- The `/session` loop, related to the directly-recursive attempt list: on a
failure outcome, the payload is the aggregate of the accumulated plus the
still-to-happen attempts, and exactly the attempted models were called. -/
theorem negotiateLoop_failure_char (h : String → HandshakeResult) :
    ∀ (models : List String) (acc : List AttemptRecord) (e d : String),
      (negotiateLoop h models acc).1 = SessionOutcome.failure e d →
      (negotiateLoop h models acc).1 = failurePayload (acc ++ attemptedOf h models) ∧
      (negotiateLoop h models acc).2 = (attemptedOf h models).map AttemptRecord.model := by
  intro models
  induction models with
  | nil =>
    intro acc e d _
    simp [negotiateLoop, attemptedOf]
  | cons m rest ih =>
    intro acc e d hfail
    cases hm : h m with
    | ok pm =>
      rw [negotiateLoop] at hfail
      simp [hm] at hfail
    | err s dd =>
      by_cases hr : shouldRetry s = true
      · rw [negotiateLoop] at hfail ⊢
        simp only [hm, hr, if_pos] at hfail ⊢
        have := ih (acc ++ [⟨m, s, dd⟩]) e d hfail
        rw [attemptedOf]
        simp only [hm, hr, if_pos]
        constructor
        · rw [this.1]
          simp [List.append_assoc]
        · simp [this.2]
      · have hrf : shouldRetry s = false := by simpa using hr
        rw [negotiateLoop] at hfail ⊢
        rw [attemptedOf]
        simp [hm, hrf]

theorem handleNext_some (p : Playlist) (i : Int) :
    handleNext (some p) i =
      if min (i + 1) ((p.playlist.length : Int) - 1) = i then i
      else min (i + 1) ((p.playlist.length : Int) - 1) := rfl

theorem handlePrev_some (p : Playlist) (i : Int) :
    handlePrev (some p) i =
      if max (i - 1) 0 = i then i else max (i - 1) 0 := rfl

theorem navStep_bounds (p : Playlist) (hlen : 1 ≤ p.playlist.length) (i : Int)
    (h0 : 0 ≤ i) (h1 : i ≤ (p.playlist.length : Int) - 1) (op : NavOp) :
    0 ≤ navStep (some p) i op ∧ navStep (some p) i op ≤ (p.playlist.length : Int) - 1 := by
  have hlen2 : (1 : Int) ≤ (p.playlist.length : Int) := by exact_mod_cast hlen
  cases op with
  | nextOp =>
    show 0 ≤ handleNext (some p) i ∧ handleNext (some p) i ≤ (p.playlist.length : Int) - 1
    rw [handleNext_some]
    constructor <;> (split <;> omega)
  | prevOp =>
    show 0 ≤ handlePrev (some p) i ∧ handlePrev (some p) i ≤ (p.playlist.length : Int) - 1
    rw [handlePrev_some]
    constructor <;> (split <;> omega)

theorem navRun_bounds (p : Playlist) (hlen : 1 ≤ p.playlist.length) :
    ∀ (ops : List NavOp) (i : Int), 0 ≤ i → i ≤ (p.playlist.length : Int) - 1 →
      0 ≤ navRun (some p) i ops ∧ navRun (some p) i ops ≤ (p.playlist.length : Int) - 1
  | [], i, h0, h1 => ⟨h0, h1⟩
  | op :: ops, i, h0, h1 => by
    have hs := navStep_bounds p hlen i h0 h1 op
    exact navRun_bounds p hlen ops (navStep (some p) i op) hs.1 hs.2

theorem findIndexAux_no_match (q : PlaylistItem → Bool) :
    ∀ (l : List PlaylistItem) (n : Int), (∀ x ∈ l, q x = false) →
      findIndexAux q l n = -1
  | [], _, _ => rfl
  | x :: xs, n, h => by
    have hx : q x = false := h x (by simp)
    rw [findIndexAux, hx]
    simpa using findIndexAux_no_match q xs (n + 1) (fun y hy => h y (by simp [hy]))

theorem findIndexAux_found (q : PlaylistItem → Bool) :
    ∀ (l : List PlaylistItem) (i : Nat) (item : PlaylistItem) (n : Int),
      l.get? i = some item → q item = true →
      (∀ j, j < i → ∀ y, l.get? j = some y → q y = false) →
      findIndexAux q l n = n + i
  | [], i, item, n, hget, _, _ => by simp at hget
  | x :: xs, 0, item, n, hget, hq, _ => by
    simp at hget
    subst hget
    rw [findIndexAux, hq]
    simp
  | x :: xs, i + 1, item, n, hget, hq, hbefore => by
    have hx : q x = false := hbefore 0 (Nat.succ_pos i) x rfl
    rw [findIndexAux, hx]
    simp only [Bool.false_eq_true, if_false]
    have := findIndexAux_found q xs i item (n + 1) (by simpa using hget) hq
      (fun j hj y hy => hbefore (j + 1) (by omega) y (by simpa using hy))
    rw [this]
    push_cast
    ring

/-! ## Claim theorems -/

/-- Claim C3: feeding the reassembler deltas "Hel" then "lo" under id "u1"
and then a completion signal for "u1" emits exactly one completed-utterance
event carrying "Hello" and deletes the buffer entry; a second completion
signal for "u1" then emits nothing, as does a completion signal for an id
with no prior delta. -/
theorem C3_reassembler_hello :
    (handleDataMessage []
        (.event "response.output_text.delta" (some "u1") (some "Hel") none) =
      ⟨[("u1", "Hel")], [], false⟩) ∧
    (handleDataMessage [("u1", "Hel")]
        (.event "response.output_text.delta" (some "u1") (some "lo") none) =
      ⟨[("u1", "Hello")], [], false⟩) ∧
    (handleDataMessage [("u1", "Hello")]
        (.event "response.output_text.done" (some "u1") none none) =
      ⟨[], ["Hello"], false⟩) ∧
    (handleDataMessage []
        (.event "response.output_text.done" (some "u1") none none) =
      ⟨[], [], false⟩) := by
  decide

/-- Claim C7: with an empty candidate list the negotiator fails immediately
with the "no model configured" error and calls the handshake zero times. -/
theorem C7_empty_candidates (h : String → HandshakeResult) :
    getSession h [] =
      (SessionOutcome.failure "Failed to create realtime session"
        "No realtime model configured.", []) := rfl

/-- Claim C10 (implicit): calling `connect` when the state is not `idle` is a
silent no-op — no error, no state change, no side-effecting step runs. -/
theorem C10_connect_not_idle_noop (st : RtcState) (env : ConnectEnv)
    (h : st.connectionState ≠ ConnState.idle) :
    connect st env = ⟨none, st, []⟩ := by
  simp [connect, h]

theorem C10_witness :
    connect ⟨ConnState.closed, false, false, false, []⟩
        ⟨none, none, .response true "answer", none⟩ =
      ⟨none, ⟨ConnState.closed, false, false, false, []⟩, []⟩ :=
  C10_connect_not_idle_noop ⟨ConnState.closed, false, false, false, []⟩
    ⟨none, none, .response true "answer", none⟩ (by decide)

/-- Claim C1 counterexample: from `idle`, a failing media acquisition makes
`connect` throw, but the state afterwards is `connecting`, not `closed` as
the claim states. -/
theorem C1_counterexample :
    ((connect ⟨ConnState.idle, false, false, false, []⟩
        ⟨some "NotAllowedError: Permission denied", none,
          FetchOutcome.response true "", none⟩).error ≠ none) ∧
    (connect ⟨ConnState.idle, false, false, false, []⟩
        ⟨some "NotAllowedError: Permission denied", none,
          FetchOutcome.response true "", none⟩).state.connectionState ≠
      ConnState.closed := by
  decide

/-- Claim C1 (amended): every failure during `connect`'s signaling exchange
raises the error to the caller and leaves the connection state `connecting` —
never `idle` and never `closed` (the `closed` state is only ever entered by
`close()` or by the transport's connection-state-change callback, not by the
`connect` call itself). -/
theorem C1_connect_failure_leaves_connecting (st : RtcState) (env : ConnectEnv)
    (e : String) (herr : (connect st env).error = some e) :
    (connect st env).state.connectionState = ConnState.connecting := by
  obtain ⟨cs, hp, hd, hr, rb⟩ := st
  obtain ⟨mr, orr, fr, ar⟩ := env
  cases cs <;> cases mr <;> cases orr <;>
    (try cases ar) <;>
    rcases fr with msg | ⟨ok, body⟩ <;>
    (try cases ok) <;>
    simp_all [connect]

theorem C1_witness :
    (connect ⟨ConnState.idle, false, false, false, []⟩
        ⟨none, none, FetchOutcome.response false "model not found", none⟩).error =
      some "Failed to initialize realtime session: model not found" ∧
    (connect ⟨ConnState.idle, false, false, false, []⟩
        ⟨none, none, FetchOutcome.response false "model not found", none⟩).state.connectionState =
      ConnState.connecting :=
  ⟨by decide,
   C1_connect_failure_leaves_connecting ⟨ConnState.idle, false, false, false, []⟩
     ⟨none, none, FetchOutcome.response false "model not found", none⟩
     "Failed to initialize realtime session: model not found" (by decide)⟩

/-- Claim C9 counterexample: a frame that is valid JSON but of an
unrecognized event shape is dropped — buffers unchanged, nothing emitted —
but with no logged warning, contrary to the claim (only the JSON-parse
failure path logs). -/
theorem C9_counterexample :
    handleDataMessage [("u1", "Hel")] (.event "session.created" none none none) =
      ⟨[("u1", "Hel")], [], false⟩ := by
  decide

/-- Claim C9 (amended): an unparsable frame is dropped with a logged warning;
a valid-JSON frame of unrecognized event shape is dropped silently; in both
cases the handler returns normally (it is total: the whole body sits in a
`try`/`catch`), emits no event, and leaves the buffers unchanged. -/
theorem C9_bad_frames_dropped (bufs : Buffers) :
    handleDataMessage bufs .invalidJson = ⟨bufs, [], true⟩ ∧
    (∀ tp rid d nid, tp ≠ "response.output_text.delta" →
      tp ≠ "response.output_text.done" → tp ≠ "response.completed" →
      handleDataMessage bufs (.event tp rid d nid) = ⟨bufs, [], false⟩) := by
  constructor
  · rfl
  · intro tp rid d nid h1 h2 h3
    simp [handleDataMessage, h1, h2, h3]

theorem C9_witness :
    handleDataMessage [("u1", "Hel")] (.event "response.created" none none none) =
      ⟨[("u1", "Hel")], [], false⟩ :=
  (C9_bad_frames_dropped [("u1", "Hel")]).2 "response.created" none none none
    (by decide) (by decide) (by decide)

/-- Claim C2: the negotiator walks the candidates in order. Given `[A, B]`:
when A's handshake fails with a retry-eligible status (400, 404 or 422) and
B's succeeds, the outcome is a success descriptor whose model field is B
(filled in when the remote payload omits it or is falsy, kept when the remote
echoes B), with both A and B called in that order; when A fails with any
other status (e.g. 401), only A is ever called and the outcome is the
terminal failure payload built from A's attempt alone. -/
theorem C2_negotiator_fallback_order (h : String → HandshakeResult) (A B : String) :
    (∀ s dA pm, (s = 400 ∨ s = 404 ∨ s = 422) → h A = .err s dA →
      h B = .ok pm → (optTruthy pm = none ∨ pm = some B) →
      getSession h [A, B] = (SessionOutcome.success B, [A, B])) ∧
    (∀ s dA, ¬(s = 400 ∨ s = 404 ∨ s = 422) → h A = .err s dA →
      getSession h [A, B] = (failurePayload [⟨A, s, dA⟩], [A])) := by
  constructor
  · intro s dA pm hs hA hB hpm
    have hr : shouldRetry s = true := by rcases hs with rfl | rfl | rfl <;> rfl
    rcases hpm with hpm | rfl
    · simp [getSession, negotiateLoop, hA, hB, hr, hpm]
    · by_cases hB0 : B = ""
      · subst hB0
        simp [getSession, negotiateLoop, hA, hB, hr, optTruthy]
      · simp [getSession, negotiateLoop, hA, hB, hr, optTruthy, hB0]
  · intro s dA hs hA
    have hr : shouldRetry s = false := by
      push_neg at hs
      simp [shouldRetry, hs.1, hs.2.1, hs.2.2]
    simp [getSession, negotiateLoop, hA, hr]

theorem C2_witness :
    getSession
        (fun m => if m = "A" then HandshakeResult.err 404 "model not found"
          else HandshakeResult.ok none) ["A", "B"] =
      (SessionOutcome.success "B", ["A", "B"]) ∧
    getSession
        (fun m => if m = "A" then HandshakeResult.err 401 "bad key"
          else HandshakeResult.ok none) ["A", "B"] =
      (failurePayload [⟨"A", 401, "bad key"⟩], ["A"]) :=
  ⟨(C2_negotiator_fallback_order
      (fun m => if m = "A" then HandshakeResult.err 404 "model not found"
        else HandshakeResult.ok none) "A" "B").1
      404 "model not found" none (by simp) (by simp) (by simp) (Or.inl rfl),
   (C2_negotiator_fallback_order
      (fun m => if m = "A" then HandshakeResult.err 401 "bad key"
        else HandshakeResult.ok none) "A" "B").2
      401 "bad key" (by simp) (by simp)⟩

/-- Claim C6: whenever the negotiator ends in failure with a nonempty
candidate list, the error payload surfaced to the caller is exactly the
aggregated summary of every attempted model (its name, status and detail,
one line per attempt joined into one string), and exactly those models were
called. -/
theorem C6_aggregated_failure (h : String → HandshakeResult) (models : List String)
    (hne : models ≠ []) (e d : String)
    (hfail : (getSession h models).1 = SessionOutcome.failure e d) :
    e = "Failed to create realtime session" ∧
    d = attemptSummary (attemptedOf h models) ∧
    (getSession h models).2 = (attemptedOf h models).map AttemptRecord.model := by
  obtain ⟨m, rest, rfl⟩ : ∃ m rest, models = m :: rest := by
    cases models with
    | nil => exact absurd rfl hne
    | cons m rest => exact ⟨m, rest, rfl⟩
  have hlen : (m :: rest).length ≠ 0 := by simp
  rw [getSession, if_neg hlen] at hfail ⊢
  have hchar := negotiateLoop_failure_char h (m :: rest) [] e d hfail
  have hsumne : attemptSummary (attemptedOf h (m :: rest)) ≠ "" := by
    cases hm : h m with
    | ok pm =>
      rw [negotiateLoop] at hfail
      simp [hm] at hfail
    | err s dd =>
      rw [attemptedOf]
      simp only [hm]
      exact attemptSummary_cons_ne_empty _ _
  rw [hchar.1] at hfail
  simp only [failurePayload, List.nil_append] at hfail
  rw [if_neg hsumne] at hfail
  have he := (SessionOutcome.failure.injEq _ _ _ _).mp hfail
  exact ⟨he.1.symm, he.2.symm, by simpa using hchar.2⟩

theorem C6_witness :
    "Failed to create realtime session" = "Failed to create realtime session" ∧
    "[A] status 404 nope | [B] status 422 also nope" =
      attemptSummary (attemptedOf
        (fun m => if m = "A" then HandshakeResult.err 404 "nope"
          else HandshakeResult.err 422 "also nope") ["A", "B"]) ∧
    (getSession
        (fun m => if m = "A" then HandshakeResult.err 404 "nope"
          else HandshakeResult.err 422 "also nope") ["A", "B"]).2 =
      (attemptedOf
        (fun m => if m = "A" then HandshakeResult.err 404 "nope"
          else HandshakeResult.err 422 "also nope") ["A", "B"]).map
        AttemptRecord.model :=
  C6_aggregated_failure
    (fun m => if m = "A" then HandshakeResult.err 404 "nope"
      else HandshakeResult.err 422 "also nope") ["A", "B"]
    (by decide) "Failed to create realtime session"
    "[A] status 404 nope | [B] status 422 also nope" (by decide)

/-- Claim C5: on a loaded playlist of n ≥ 1 steps, `currentIndex` stays in
`[0, n-1]` under every sequence of next/prev presses (clamped, never
wrapping); `prev` at index 0 keeps the index at 0 and triggers no media
reload; and on a 3-step playlist, three `next` presses from index 0 reach 1,
then 2, then stay at 2. -/
theorem C5_index_clamped (p : Playlist) (hlen : 1 ≤ p.playlist.length) :
    (∀ (i : Int), 0 ≤ i → i ≤ (p.playlist.length : Int) - 1 → ∀ ops,
      0 ≤ navRun (some p) i ops ∧
        navRun (some p) i ops ≤ (p.playlist.length : Int) - 1) ∧
    (handlePrev (some p) 0 = 0 ∧ mediaReloadFires 0 (handlePrev (some p) 0) = false) ∧
    (p.playlist.length = 3 →
      navRun (some p) 0 [.nextOp] = 1 ∧
      navRun (some p) 0 [.nextOp, .nextOp] = 2 ∧
      navRun (some p) 0 [.nextOp, .nextOp, .nextOp] = 2) := by
  refine ⟨fun i h0 h1 ops => navRun_bounds p hlen ops i h0 h1, ⟨?_, ?_⟩, fun h3 => ?_⟩
  · rw [handlePrev_some]
    norm_num
  · rw [mediaReloadFires, handlePrev_some]
    norm_num
  · refine ⟨?_, ?_, ?_⟩ <;>
      simp [navRun, navStep, handleNext_some, handlePrev_some, h3]

theorem C5_witness :
    navRun (some ⟨"Parratech", "en",
        [⟨"Step1", "a.mp4", "l1"⟩, ⟨"Step2", "b.mp4", "l2"⟩, ⟨"Step3", "c.mp4", "l3"⟩]⟩)
      0 [.nextOp, .nextOp, .nextOp] = 2 ∧
    handlePrev (some ⟨"Parratech", "en",
        [⟨"Step1", "a.mp4", "l1"⟩, ⟨"Step2", "b.mp4", "l2"⟩, ⟨"Step3", "c.mp4", "l3"⟩]⟩)
      0 = 0 :=
  ⟨((C5_index_clamped ⟨"Parratech", "en",
      [⟨"Step1", "a.mp4", "l1"⟩, ⟨"Step2", "b.mp4", "l2"⟩, ⟨"Step3", "c.mp4", "l3"⟩]⟩
      (by decide)).2.2 (by decide)).2.2,
   (C5_index_clamped ⟨"Parratech", "en",
      [⟨"Step1", "a.mp4", "l1"⟩, ⟨"Step2", "b.mp4", "l2"⟩, ⟨"Step3", "c.mp4", "l3"⟩]⟩
      (by decide)).2.1.1⟩

/-- Claim C8: a `ShowById(id)` whose id matches no step's identifier
(case-insensitively) leaves `currentIndex` unchanged and appends exactly one
system transcript entry naming the unknown id; when the id matches the step
at position i (and no earlier step matches), `currentIndex` is set directly
to i and the switch is logged with the step's own identifier. -/
theorem C8_showById (p : Playlist) (idx : Int) (log : List Entry) (id : String) :
    ((∀ item ∈ p.playlist, lowerStr item.id ≠ lowerStr id) →
      handleShowById (some p) idx log id =
        (idx, log ++ [⟨Role.system,
          "Clip " ++ id ++ " is not part of the current playlist."⟩])) ∧
    (∀ (i : Nat) (item : PlaylistItem), p.playlist.get? i = some item →
      lowerStr item.id = lowerStr id →
      (∀ j, j < i → ∀ y, p.playlist.get? j = some y → lowerStr y.id ≠ lowerStr id) →
      handleShowById (some p) idx log id =
        ((i : Int), log ++ [⟨Role.system,
          "Switching to clip " ++ item.id ++ "."⟩])) := by
  constructor
  · intro hno
    have hfi : findIndexJs (fun item => lowerStr item.id == lowerStr id) p.playlist = -1 :=
      findIndexAux_no_match _ p.playlist 0
        (fun x hx => beq_eq_false_iff_ne.mpr (hno x hx))
    simp [handleShowById, hfi]
  · intro i item hget hid hbefore
    have hfi : findIndexJs (fun item => lowerStr item.id == lowerStr id) p.playlist = (i : Int) := by
      have := findIndexAux_found (fun item => lowerStr item.id == lowerStr id)
        p.playlist i item 0 hget (by simp [hid])
        (fun j hj y hy => beq_eq_false_iff_ne.mpr (hbefore j hj y hy))
      simpa [findIndexJs] using this
    have hne : ((i : Int)) ≠ -1 := by omega
    have hget2 : p.playlist[i]? = some item := by
      simpa [List.get?_eq_getElem?] using hget
    simp [handleShowById, hfi, hne, Int.toNat_natCast, hget, hget2]

theorem C8_witness :
    handleShowById (some ⟨"s", "en", [⟨"Step1", "a", "l"⟩, ⟨"Step2", "b", "l"⟩]⟩)
        0 [] "ghost" =
      (0, [⟨Role.system, "Clip ghost is not part of the current playlist."⟩]) ∧
    handleShowById (some ⟨"s", "en", [⟨"Step1", "a", "l"⟩, ⟨"Step2", "b", "l"⟩]⟩)
        0 [] "sTeP2" =
      (1, [⟨Role.system, "Switching to clip Step2."⟩]) := by
  constructor
  · exact (C8_showById ⟨"s", "en", [⟨"Step1", "a", "l"⟩, ⟨"Step2", "b", "l"⟩]⟩
      0 [] "ghost").1 (by decide)
  · exact (C8_showById ⟨"s", "en", [⟨"Step1", "a", "l"⟩, ⟨"Step2", "b", "l"⟩]⟩
      0 [] "sTeP2").2 1 ⟨"Step2", "b", "l"⟩ rfl (by decide)
      (by
        intro j hj y hy
        have hj0 : j = 0 := by omega
        subst hj0
        simp [List.get?] at hy
        subst hy
        decide)

theorem isPrefixOf_append_self (n b : List Char) : n.isPrefixOf (n ++ b) = true := by
  induction n with
  | nil => simp [List.isPrefixOf]
  | cons c cs ih => simp [List.isPrefixOf, ih]

theorem isInfixB_cons (n hay : List Char) (c : Char) :
    isInfixB n (c :: hay) = (n.isPrefixOf (c :: hay) || isInfixB n hay) := by
  simp [isInfixB, List.tails_cons]

theorem isInfixB_here (n b : List Char) : isInfixB n (n ++ b) = true := by
  cases n with
  | nil =>
    rw [List.nil_append]
    induction b with
    | nil => decide
    | cons c bs ih => rw [isInfixB_cons]; simp [List.isPrefixOf]
  | cons c cs =>
    rw [List.cons_append, isInfixB_cons]
    have h := isPrefixOf_append_self (c :: cs) b
    rw [List.cons_append] at h
    simp [h]

theorem isInfixB_append_right (a n b : List Char) : isInfixB n (a ++ (n ++ b)) = true := by
  induction a with
  | nil => simpa using isInfixB_here n b
  | cons c as ih => rw [List.cons_append, isInfixB_cons]; simp [ih]

theorem isInfixB_parts (a x y z b : List Char) :
    isInfixB (x ++ y ++ z) (a ++ (x ++ (y ++ (z ++ b)))) = true := by
  have h := isInfixB_append_right a (x ++ y ++ z) b
  simpa [List.append_assoc] using h

theorem upperData_append (s t : String) :
    upperData (s ++ t) = upperData s ++ upperData t := by
  simp [upperData, String.data_append]

/-- Claim C4: any text containing the next-clip marker `[SHOW:NEXT]` in any
casing parses to `NEXT` (highest precedence); in particular a show tag whose
bracketed payload uppercases to `NEXT` — any casing of `[SHOW:next]`, with
arbitrary surrounding text — parses to `NEXT` and never to `SHOW "next"` or
any other `SHOW` directive. -/
theorem C4_next_marker_precedence :
    (∀ text : String, containsCI text "[SHOW:NEXT]" = true →
      parse text = some CommandAction.NEXT) ∧
    (∀ pre payload suf : String, upperStr payload = "NEXT" →
      parse (pre ++ "[SHOW:" ++ payload ++ "]" ++ suf) = some CommandAction.NEXT ∧
      ∀ id, parse (pre ++ "[SHOW:" ++ payload ++ "]" ++ suf) ≠
        some (CommandAction.SHOW id)) := by
  have main : ∀ text : String, containsCI text "[SHOW:NEXT]" = true →
      parse text = some CommandAction.NEXT := by
    intro text hct
    have hne : text ≠ "" := by
      intro h0
      rw [h0] at hct
      exact absurd hct (by decide)
    simp [parse, hne, hct]
  refine ⟨main, fun pre payload suf hup => ?_⟩
  have h1 : upperData payload = "NEXT".data := congrArg String.data hup
  have hc : containsCI (pre ++ "[SHOW:" ++ payload ++ "]" ++ suf) "[SHOW:NEXT]" = true := by
    unfold containsCI
    rw [show upperData "[SHOW:NEXT]" = "[SHOW:".data ++ "NEXT".data ++ "]".data from by decide]
    rw [upperData_append, upperData_append, upperData_append, upperData_append]
    rw [h1]
    rw [show upperData "[SHOW:" = "[SHOW:".data from by decide]
    rw [show upperData "]" = "]".data from by decide]
    have h2 := isInfixB_parts (upperData pre) "[SHOW:".data "NEXT".data "]".data (upperData suf)
    simpa [List.append_assoc] using h2
  have hp := main _ hc
  exact ⟨hp, fun id h => by rw [hp] at h; simp at h⟩

theorem C4_witness :
    parse "Great work. [show:Next] please" = some CommandAction.NEXT ∧
    parse ("intro " ++ "[SHOW:" ++ "nExT" ++ "]" ++ " outro") = some CommandAction.NEXT :=
  ⟨C4_next_marker_precedence.1 "Great work. [show:Next] please" (by decide),
   (C4_next_marker_precedence.2 "intro " "nExT" " outro" (by decide)).1⟩

end Parratech
